import Mathlib

/-
Shallow embedding of the trace data model and exception classifier of the
go-ethereum experiment package (src/experiment/exceptions.go).

Modelling conventions:
* Go `error` values are `Option String`: `none` is the nil error, `some s`
  an error whose `Error()` method returns `s`.
* Go `uint64`/`uint` fields are `Nat` (no arithmetic in the modelled code
  can overflow: the only operations are field reads/writes and slice append).
* Go slices of pointers (`[]*Trace`, `[]*OneStep`) are `List (Option _)`:
  a `none` element is a nil pointer.  Dereferencing a nil pointer panics in
  Go, so `ExceptionalTx.ReleaseInternal`, which calls a method through each
  stored `*Trace`, returns `Option _` (`none` = runtime panic).
* The Go regexp calls `len(regexp.MustCompile("^PFX.+$").FindAllString(msg, -1)) > 0`
  are modelled by `regexPrefixDetail PFX msg`: RE2 without the `m`/`s` flags
  anchors `^`/`$` to the start/end of the whole text and `.` matches any
  character except '\n', so the regexp accepts exactly the strings
  `PFX ++ d` with `d` non-empty and newline-free.
-/

namespace GethExperiment

/-! ## Exception kind enumeration (Go `const ( NoException = iota ... )`) -/

def NoException : Nat := 0

def ExplicitRevert : Nat := 1

def DepositOutOfGas : Nat := 2

def RunOutOfGas : Nat := 3

def CallStackOverflow : Nat := 4

def DataStackUnderflow : Nat := 5

def DataStackOverflow : Nat := 6

def InvalidJumpDestination : Nat := 7

def InvalidInstruction : Nat := 8

def PrecompiledCallError : Nat := 9

def InsufficientBalance : Nat := 10

def WritePermissionViolation : Nat := 11

def ReturnDataOutOfBound : Nat := 12

def ContractAddressCollision : Nat := 13

def MaxCodeSizeExceeded : Nat := 14

def GasUintOverflow : Nat := 15

def EmptyCode : Nat := 16

/-! ## Regexp model -/

/-- Character-by-character test that the first list is an initial segment of
the second. -/
def listStartsWith : List Char → List Char → Bool
  | [], _ => true
  | _ :: _, [] => false
  | p :: ps, s :: ss => p == s && listStartsWith ps ss

/-- Semantics of the Go test
`len(regexp.MustCompile("^PFX.+$").FindAllString(msg, -1)) > 0` where the
pattern is an anchored literal `PFX` followed by `.+`: the whole message must
be `PFX` followed by at least one character, none of which is a newline
(RE2 `.` does not match '\n' and `^`/`$` anchor to the whole text without
the `m` flag). -/
def regexPrefixDetail (pfx msg : String) : Bool :=
  listStartsWith pfx.data msg.data
    && !(msg.data.drop pfx.data.length).isEmpty
    && !((msg.data.drop pfx.data.length).contains '\n')

/-! ## The classifier (Go `CheckException`) -/

/-- Embedding of Go `CheckException(err error) (exception string, kind uint64)`:
the code's interleaved first-match-wins chain (four exact matches, four
regexp rules, seven more exact matches, catch-all). -/
def CheckException : Option String → String × Nat
  | none => ("", NoException)
  | some msg =>
    if msg == "evm: execution reverted" then (msg, ExplicitRevert)
    else if msg == "contract creation code storage out of gas" then (msg, DepositOutOfGas)
    else if msg == "out of gas" then (msg, RunOutOfGas)
    else if msg == "max call depth exceeded" then (msg, CallStackOverflow)
    else if regexPrefixDetail "stack underflow " msg then (msg, DataStackUnderflow)
    else if regexPrefixDetail "stack limit reached " msg then (msg, DataStackOverflow)
    else if regexPrefixDetail "invalid jump destination " msg then (msg, InvalidJumpDestination)
    else if regexPrefixDetail "invalid opcode " msg then (msg, InvalidInstruction)
    else if msg == "insufficient balance for transfer" then (msg, InsufficientBalance)
    else if msg == "evm: write protection" then (msg, WritePermissionViolation)
    else if msg == "evm: return data out of bounds" then (msg, ReturnDataOutOfBound)
    else if msg == "contract address collision" then (msg, ContractAddressCollision)
    else if msg == "evm: max code size exceeded" then (msg, MaxCodeSizeExceeded)
    else if msg == "gas uint64 overflow" then (msg, GasUintOverflow)
    else if msg == "empty call code" then (msg, EmptyCode)
    else (msg, PrecompiledCallError)

/-- Reference classifier built from the specification's rule order: all
eleven exact string matches first, then the four pattern rules, then the
catch-all.  Used only to compare with `CheckException`. -/
def ClassifySpecOrder : Option String → String × Nat
  | none => ("", NoException)
  | some msg =>
    if msg == "evm: execution reverted" then (msg, ExplicitRevert)
    else if msg == "contract creation code storage out of gas" then (msg, DepositOutOfGas)
    else if msg == "out of gas" then (msg, RunOutOfGas)
    else if msg == "max call depth exceeded" then (msg, CallStackOverflow)
    else if msg == "insufficient balance for transfer" then (msg, InsufficientBalance)
    else if msg == "evm: write protection" then (msg, WritePermissionViolation)
    else if msg == "evm: return data out of bounds" then (msg, ReturnDataOutOfBound)
    else if msg == "contract address collision" then (msg, ContractAddressCollision)
    else if msg == "evm: max code size exceeded" then (msg, MaxCodeSizeExceeded)
    else if msg == "gas uint64 overflow" then (msg, GasUintOverflow)
    else if msg == "empty call code" then (msg, EmptyCode)
    else if regexPrefixDetail "stack underflow " msg then (msg, DataStackUnderflow)
    else if regexPrefixDetail "stack limit reached " msg then (msg, DataStackOverflow)
    else if regexPrefixDetail "invalid jump destination " msg then (msg, InvalidJumpDestination)
    else if regexPrefixDetail "invalid opcode " msg then (msg, InvalidInstruction)
    else (msg, PrecompiledCallError)

/-! ## Data model (Go structs) -/

/-- Go struct `OneStep`. -/
structure OneStep where
  StepNum : Nat
  PC : Nat
  Ins : String
  RemainingGas : Nat
deriving DecidableEq

/-- Go struct `Trace`: one internal call frame.  `Steps` is a slice of
pointers, so elements are `Option OneStep`. -/
structure Trace where
  CallStackDepth : Nat
  From : String
  To : String
  Value : String
  Input : String
  GasLimit : Nat
  GasPrice : String
  StatusCode : Nat
  ErrorMsg : String
  ErrorCode : Nat
  Steps : List (Option OneStep)
  TraceDocID : String
deriving DecidableEq

/-- Go struct `ExceptionalTx`: the root transaction record.  `Traces` is a
slice of pointers, so elements are `Option Trace`. -/
structure ExceptionalTx where
  BlockNum : Nat
  TxIndex : Nat
  Nonce : Nat
  TxHash : String
  From : String
  To : String
  Value : String
  Input : String
  GasLimit : Nat
  GasPrice : String
  CreateAddress : String
  StatusCode : Nat
  NumSteps : Nat
  HasException : Bool
  Traces : List (Option Trace)
deriving DecidableEq

/-! ## Constructors (Go `NewTxRecord`, `NewTrace`) -/

/-- Embedding of Go `NewTxRecord()`: `new(ExceptionalTx)` zeroes every
field, then `Traces` is set to an empty slice. -/
def NewTxRecord : ExceptionalTx :=
  { BlockNum := 0, TxIndex := 0, Nonce := 0, TxHash := "", From := "", To := ""
    Value := "", Input := "", GasLimit := 0, GasPrice := "", CreateAddress := ""
    StatusCode := 0, NumSteps := 0, HasException := false, Traces := [] }

/-- The `Trace` value built by Go `NewTrace`: `new(Trace)` zeroes every
field, then `Steps` is set to an empty slice. -/
def newEmptyTrace : Trace :=
  { CallStackDepth := 0, From := "", To := "", Value := "", Input := ""
    GasLimit := 0, GasPrice := "", StatusCode := 0, ErrorMsg := ""
    ErrorCode := 0, Steps := [], TraceDocID := "" }

/-- Embedding of Go `(tx *ExceptionalTx) NewTrace() *Trace`: appends a fresh
zero-valued trace (with an empty step slice) to `tx.Traces` and returns it.
The pair carries the updated record and the returned trace. -/
def NewTrace (tx : ExceptionalTx) : ExceptionalTx × Trace :=
  ({ tx with Traces := tx.Traces ++ [some newEmptyTrace] }, newEmptyTrace)

/-! ## Release (Go `ReleaseInternal`) -/

/-- Embedding of Go `(t *Trace) ReleaseInternal()`: sets every element of
the `Steps` slice to nil, keeping the slice length. -/
def Trace.ReleaseInternal (t : Trace) : Trace :=
  { t with Steps := t.Steps.map (fun _ => (none : Option OneStep)) }

/-- The loop body of Go `(tx *ExceptionalTx) ReleaseInternal()`: for each
slot, call `p.ReleaseInternal()` through the stored pointer and then set the
slot to nil.  Calling through a nil pointer dereferences `t.Steps` on a nil
`t` and panics, modelled by `none`.  The trace object mutated by
`p.ReleaseInternal()` becomes unreachable from the record once its slot is
nilled, so only the nilled slot is kept here; the effect on the trace object
itself is `Trace.ReleaseInternal`. -/
def releaseTraceSlots : List (Option Trace) → Option (List (Option Trace))
  | [] => some []
  | none :: _ => none
  | some _ :: rest =>
    match releaseTraceSlots rest with
    | none => none
    | some rs => some (none :: rs)

/-- Embedding of Go `(tx *ExceptionalTx) ReleaseInternal()`: `none` models a
runtime panic (nil-pointer dereference inside the loop). -/
def ExceptionalTx.ReleaseInternal (tx : ExceptionalTx) : Option ExceptionalTx :=
  match releaseTraceSlots tx.Traces with
  | none => none
  | some ts => some { tx with Traces := ts }

/-! ## Sealing (modelled from the spec) -/

/-- Modelled from the spec: "external status code indicates failure".  The
source under consideration never computes this predicate (only stores the
raw `StatusCode`); an Ethereum receipt status of 0 means failure and 1
means success. -/
def statusIndicatesFailure (sc : Nat) : Bool := sc == 0

/-- Whether a trace slot holds a node whose exception kind is not `None`;
a nil slot holds no node. -/
def traceHasException : Option Trace → Bool
  | some t => t.ErrorCode != NoException
  | none => false

/-- Modelled from the spec: `Seal(handle)` of the Transaction Record
Assembler "computes total step count, computes `HasException`" where
`HasException` is "true if the external status failed OR any TraceNode has
kind ≠ None".  No function in the source computes these derived fields. -/
def Seal (tx : ExceptionalTx) : ExceptionalTx :=
  { tx with
    NumSteps := (tx.Traces.map (fun ot => match ot with
      | some t => t.Steps.length
      | none => 0)).sum
    HasException := statusIndicatesFailure tx.StatusCode || tx.Traces.any traceHasException }

/-! ## Helper lemmas -/

/-- An if-then-else of two nonzero naturals is nonzero. -/
theorem ite_ne_zero {c : Prop} [Decidable c] {a b : Nat} (ha : a ≠ 0) (hb : b ≠ 0) :
    (if c then a else b) ≠ 0 := by
  split
  · exact ha
  · exact hb

/-- Every branch of the classifier chain returns the incoming message as the
first component. -/
theorem checkException_fst (s : String) : (CheckException (some s)).1 = s := by
  simp only [CheckException, apply_ite Prod.fst, ite_self]

/-- Every branch of the classifier chain taken for a non-nil error returns a
kind different from `NoException`. -/
theorem checkException_snd_ne (s : String) : (CheckException (some s)).2 ≠ NoException := by
  simp only [CheckException, apply_ite Prod.snd]
  repeat' apply ite_ne_zero
  all_goals decide

/-- Two initial segments of the same list are comparable. -/
theorem listStartsWith_comparable (a b s : List Char) (ha : listStartsWith a s = true)
    (hb : listStartsWith b s = true) :
    listStartsWith a b = true ∨ listStartsWith b a = true := by
  induction s generalizing a b with
  | nil =>
    cases a with
    | nil => left; rfl
    | cons x xs => exact absurd ha (by simp [listStartsWith])
  | cons c cs ih =>
    cases a with
    | nil => left; rfl
    | cons x xs =>
      cases b with
      | nil => right; rfl
      | cons y ys =>
        simp only [listStartsWith, Bool.and_eq_true, beq_iff_eq] at ha hb
        obtain ⟨hx, ha2⟩ := ha
        obtain ⟨hy, hb2⟩ := hb
        subst hx; subst hy
        rcases ih xs ys ha2 hb2 with h | h
        · left; simp [listStartsWith, h]
        · right; simp [listStartsWith, h]

/-- A message accepted by a pattern rule differs from any literal the same
pattern rejects. -/
theorem ne_of_regexMatch (pfx lit msg : String) (hlit : regexPrefixDetail pfx lit = false)
    (h : regexPrefixDetail pfx msg = true) : msg ≠ lit := by
  intro he
  subst he
  simp [hlit] at h

/-- Pattern rules whose pattern texts are not initial segments of one
another accept disjoint sets of messages. -/
theorem regexMatch_excl (p q msg : String) (hpq : listStartsWith p.data q.data = false)
    (hqp : listStartsWith q.data p.data = false)
    (h : regexPrefixDetail q msg = true) : regexPrefixDetail p msg = false := by
  have hq : listStartsWith q.data msg.data = true := by
    simp only [regexPrefixDetail, Bool.and_eq_true] at h
    exact h.1.1
  cases hps : listStartsWith p.data msg.data with
  | false => simp [regexPrefixDetail, hps]
  | true =>
    rcases listStartsWith_comparable p.data q.data msg.data hps hq with hc | hc
    · rw [hpq] at hc; cases hc
    · rw [hqp] at hc; cases hc

/-- Unfolding of `traceHasException` into a propositional form. -/
theorem traceHasException_eq_true (ot : Option Trace) :
    traceHasException ot = true ↔ ∃ t, ot = some t ∧ t.ErrorCode ≠ NoException := by
  cases ot <;> simp [traceHasException, bne_iff_ne]

/-- When no slot is nil, the release loop terminates and nils every slot. -/
theorem releaseTraceSlots_all_some (l : List (Option Trace)) (h : ∀ ot ∈ l, ot ≠ none) :
    releaseTraceSlots l = some (l.map fun _ => none) := by
  induction l with
  | nil => rfl
  | cons hd tl ih =>
    cases hd with
    | none => exact absurd rfl (h none (by simp))
    | some t =>
      simp [releaseTraceSlots, ih fun ot hm => h ot (by simp [hm])]


/-- C1: each of the eleven recognized literal messages is mapped to its
paired kind, every non-nil signal gets a kind other than `NoException`, and
any non-nil signal matching no exact literal and no pattern rule is mapped
to `PrecompiledCallError`. -/
theorem CheckException_total_classification :
    (CheckException (some "evm: execution reverted") = ("evm: execution reverted", ExplicitRevert)
      ∧ CheckException (some "contract creation code storage out of gas")
          = ("contract creation code storage out of gas", DepositOutOfGas)
      ∧ CheckException (some "out of gas") = ("out of gas", RunOutOfGas)
      ∧ CheckException (some "max call depth exceeded")
          = ("max call depth exceeded", CallStackOverflow)
      ∧ CheckException (some "insufficient balance for transfer")
          = ("insufficient balance for transfer", InsufficientBalance)
      ∧ CheckException (some "evm: write protection")
          = ("evm: write protection", WritePermissionViolation)
      ∧ CheckException (some "evm: return data out of bounds")
          = ("evm: return data out of bounds", ReturnDataOutOfBound)
      ∧ CheckException (some "contract address collision")
          = ("contract address collision", ContractAddressCollision)
      ∧ CheckException (some "evm: max code size exceeded")
          = ("evm: max code size exceeded", MaxCodeSizeExceeded)
      ∧ CheckException (some "gas uint64 overflow") = ("gas uint64 overflow", GasUintOverflow)
      ∧ CheckException (some "empty call code") = ("empty call code", EmptyCode))
    ∧ (∀ msg : String, (CheckException (some msg)).2 ≠ NoException)
    ∧ (∀ msg : String,
        msg ≠ "evm: execution reverted" →
        msg ≠ "contract creation code storage out of gas" →
        msg ≠ "out of gas" →
        msg ≠ "max call depth exceeded" →
        msg ≠ "insufficient balance for transfer" →
        msg ≠ "evm: write protection" →
        msg ≠ "evm: return data out of bounds" →
        msg ≠ "contract address collision" →
        msg ≠ "evm: max code size exceeded" →
        msg ≠ "gas uint64 overflow" →
        msg ≠ "empty call code" →
        regexPrefixDetail "stack underflow " msg = false →
        regexPrefixDetail "stack limit reached " msg = false →
        regexPrefixDetail "invalid jump destination " msg = false →
        regexPrefixDetail "invalid opcode " msg = false →
        CheckException (some msg) = (msg, PrecompiledCallError)) := by
  refine ⟨by decide, checkException_snd_ne, ?_⟩
  intro msg e1 e2 e3 e4 e5 e6 e7 e8 e9 e10 e11 p1 p2 p3 p4
  simp [CheckException, beq_eq_false_iff_ne.mpr e1, beq_eq_false_iff_ne.mpr e2,
    beq_eq_false_iff_ne.mpr e3, beq_eq_false_iff_ne.mpr e4, beq_eq_false_iff_ne.mpr e5,
    beq_eq_false_iff_ne.mpr e6, beq_eq_false_iff_ne.mpr e7, beq_eq_false_iff_ne.mpr e8,
    beq_eq_false_iff_ne.mpr e9, beq_eq_false_iff_ne.mpr e10, beq_eq_false_iff_ne.mpr e11,
    p1, p2, p3, p4]

/-- C1 witness: the catch-all component applied to the concrete unrecognized
message from the specification example. -/
theorem CheckException_total_classification_witness :
    CheckException (some "unexpected precompile failure xyz")
      = ("unexpected precompile failure xyz", PrecompiledCallError) :=
  CheckException_total_classification.2.2 "unexpected precompile failure xyz"
    (by decide) (by decide) (by decide) (by decide) (by decide) (by decide) (by decide)
    (by decide) (by decide) (by decide) (by decide) (by decide) (by decide) (by decide)
    (by decide)

/-- C2 counterexample: the message "stack underflowed" begins with the
prefix "stack underflow" (followed by the detail "ed"), yet the classifier
returns `PrecompiledCallError`, not `DataStackUnderflow`: the code's rule
requires a space after "stack underflow" and a non-empty remainder. -/
theorem CheckException_bare_prefix_refuted :
    listStartsWith "stack underflow".data "stack underflowed".data = true
    ∧ CheckException (some "stack underflowed") = ("stack underflowed", PrecompiledCallError)
    ∧ PrecompiledCallError ≠ DataStackUnderflow := by
  decide

/-- C2 (amended): a message matching the Go regexp rule, i.e. consisting of
the prefix together with its trailing space followed by a non-empty,
newline-free detail, is classified with the paired pattern kind. -/
theorem CheckException_pattern_rules (msg : String) :
    (regexPrefixDetail "stack underflow " msg = true →
      CheckException (some msg) = (msg, DataStackUnderflow))
    ∧ (regexPrefixDetail "stack limit reached " msg = true →
      CheckException (some msg) = (msg, DataStackOverflow))
    ∧ (regexPrefixDetail "invalid jump destination " msg = true →
      CheckException (some msg) = (msg, InvalidJumpDestination))
    ∧ (regexPrefixDetail "invalid opcode " msg = true →
      CheckException (some msg) = (msg, InvalidInstruction)) := by
  refine ⟨fun h => ?_, fun h => ?_, fun h => ?_, fun h => ?_⟩
  · have n1 : msg ≠ "evm: execution reverted" := ne_of_regexMatch _ _ _ (by decide) h
    have n2 : msg ≠ "contract creation code storage out of gas" :=
      ne_of_regexMatch _ _ _ (by decide) h
    have n3 : msg ≠ "out of gas" := ne_of_regexMatch _ _ _ (by decide) h
    have n4 : msg ≠ "max call depth exceeded" := ne_of_regexMatch _ _ _ (by decide) h
    simp [CheckException, beq_eq_false_iff_ne.mpr n1, beq_eq_false_iff_ne.mpr n2,
      beq_eq_false_iff_ne.mpr n3, beq_eq_false_iff_ne.mpr n4, h]
  · have n1 : msg ≠ "evm: execution reverted" := ne_of_regexMatch _ _ _ (by decide) h
    have n2 : msg ≠ "contract creation code storage out of gas" :=
      ne_of_regexMatch _ _ _ (by decide) h
    have n3 : msg ≠ "out of gas" := ne_of_regexMatch _ _ _ (by decide) h
    have n4 : msg ≠ "max call depth exceeded" := ne_of_regexMatch _ _ _ (by decide) h
    have p1 : regexPrefixDetail "stack underflow " msg = false :=
      regexMatch_excl _ _ _ (by decide) (by decide) h
    simp [CheckException, beq_eq_false_iff_ne.mpr n1, beq_eq_false_iff_ne.mpr n2,
      beq_eq_false_iff_ne.mpr n3, beq_eq_false_iff_ne.mpr n4, p1, h]
  · have n1 : msg ≠ "evm: execution reverted" := ne_of_regexMatch _ _ _ (by decide) h
    have n2 : msg ≠ "contract creation code storage out of gas" :=
      ne_of_regexMatch _ _ _ (by decide) h
    have n3 : msg ≠ "out of gas" := ne_of_regexMatch _ _ _ (by decide) h
    have n4 : msg ≠ "max call depth exceeded" := ne_of_regexMatch _ _ _ (by decide) h
    have p1 : regexPrefixDetail "stack underflow " msg = false :=
      regexMatch_excl _ _ _ (by decide) (by decide) h
    have p2 : regexPrefixDetail "stack limit reached " msg = false :=
      regexMatch_excl _ _ _ (by decide) (by decide) h
    simp [CheckException, beq_eq_false_iff_ne.mpr n1, beq_eq_false_iff_ne.mpr n2,
      beq_eq_false_iff_ne.mpr n3, beq_eq_false_iff_ne.mpr n4, p1, p2, h]
  · have n1 : msg ≠ "evm: execution reverted" := ne_of_regexMatch _ _ _ (by decide) h
    have n2 : msg ≠ "contract creation code storage out of gas" :=
      ne_of_regexMatch _ _ _ (by decide) h
    have n3 : msg ≠ "out of gas" := ne_of_regexMatch _ _ _ (by decide) h
    have n4 : msg ≠ "max call depth exceeded" := ne_of_regexMatch _ _ _ (by decide) h
    have p1 : regexPrefixDetail "stack underflow " msg = false :=
      regexMatch_excl _ _ _ (by decide) (by decide) h
    have p2 : regexPrefixDetail "stack limit reached " msg = false :=
      regexMatch_excl _ _ _ (by decide) (by decide) h
    have p3 : regexPrefixDetail "invalid jump destination " msg = false :=
      regexMatch_excl _ _ _ (by decide) (by decide) h
    simp [CheckException, beq_eq_false_iff_ne.mpr n1, beq_eq_false_iff_ne.mpr n2,
      beq_eq_false_iff_ne.mpr n3, beq_eq_false_iff_ne.mpr n4, p1, p2, p3, h]

/-- C2 witness: the specification's own prefix-match example. -/
theorem CheckException_pattern_rules_witness :
    CheckException (some "stack underflow at pc=12")
      = ("stack underflow at pc=12", DataStackUnderflow) :=
  (CheckException_pattern_rules "stack underflow at pc=12").1 (by decide)

/-- C3: the specification's rule order (all eleven exact matches before the
four pattern rules) classifies every input exactly as the code's interleaved
chain does. -/
theorem ClassifySpecOrder_eq_CheckException (err : Option String) :
    ClassifySpecOrder err = CheckException err := by
  cases err with
  | none => rfl
  | some msg =>
    by_cases h1 : msg = "evm: execution reverted"
    · subst h1; decide
    by_cases h2 : msg = "contract creation code storage out of gas"
    · subst h2; decide
    by_cases h3 : msg = "out of gas"
    · subst h3; decide
    by_cases h4 : msg = "max call depth exceeded"
    · subst h4; decide
    by_cases h5 : msg = "insufficient balance for transfer"
    · subst h5; decide
    by_cases h6 : msg = "evm: write protection"
    · subst h6; decide
    by_cases h7 : msg = "evm: return data out of bounds"
    · subst h7; decide
    by_cases h8 : msg = "contract address collision"
    · subst h8; decide
    by_cases h9 : msg = "evm: max code size exceeded"
    · subst h9; decide
    by_cases h10 : msg = "gas uint64 overflow"
    · subst h10; decide
    by_cases h11 : msg = "empty call code"
    · subst h11; decide
    simp only [ClassifySpecOrder, CheckException, beq_eq_false_iff_ne.mpr h1,
      beq_eq_false_iff_ne.mpr h2, beq_eq_false_iff_ne.mpr h3, beq_eq_false_iff_ne.mpr h4,
      beq_eq_false_iff_ne.mpr h5, beq_eq_false_iff_ne.mpr h6, beq_eq_false_iff_ne.mpr h7,
      beq_eq_false_iff_ne.mpr h8, beq_eq_false_iff_ne.mpr h9, beq_eq_false_iff_ne.mpr h10,
      beq_eq_false_iff_ne.mpr h11, Bool.false_eq_true, if_false]

/-- C4 counterexample: a non-nil signal whose message is the empty string is
classified `PrecompiledCallError` (a kind different from `NoException`)
while the returned message is empty, violating the claimed equivalence. -/
theorem CheckException_empty_message_refutes_iff :
    (CheckException (some "")).2 ≠ NoException ∧ (CheckException (some "")).1 = "" := by
  decide

/-- C4 (amended): for a nil signal, or any non-nil signal whose message is
non-empty, the returned message is non-empty if and only if the returned
kind is not `NoException`. -/
theorem CheckException_nonempty_iff_kind (err : Option String)
    (h : ∀ s, err = some s → s ≠ "") :
    (CheckException err).1 ≠ "" ↔ (CheckException err).2 ≠ NoException := by
  cases err with
  | none => simp [CheckException]
  | some s =>
    rw [checkException_fst]
    exact ⟨fun _ => checkException_snd_ne s, fun _ => h s rfl⟩

/-- C4 witness: the equivalence applied at the recognized message
"out of gas". -/
theorem CheckException_nonempty_iff_kind_witness :
    (CheckException (some "out of gas")).1 ≠ ""
      ↔ (CheckException (some "out of gas")).2 ≠ NoException :=
  CheckException_nonempty_iff_kind (some "out of gas") (by intro s hs; cases hs; decide)

/-- C5: a nil failure signal is mapped to the empty message and kind
`NoException` before any classification rule is reached. -/
theorem CheckException_nil : CheckException none = ("", NoException) := rfl

/-- C9: the classifier returns the upstream message unmodified for every
non-nil signal. -/
theorem CheckException_preserves_message (s : String) : (CheckException (some s)).1 = s :=
  checkException_fst s

/-- C6: on a sealed record, `HasException` holds iff the external status
indicates failure or some trace node carries a kind other than
`NoException`; in particular a failed status with no traces yields `true`
and a successful status with only `NoException` nodes yields `false`. -/
theorem Seal_hasException_iff (tx : ExceptionalTx) :
    ((Seal tx).HasException = true ↔
      statusIndicatesFailure tx.StatusCode = true ∨
        ∃ t : Trace, some t ∈ tx.Traces ∧ t.ErrorCode ≠ NoException)
    ∧ (statusIndicatesFailure tx.StatusCode = true → tx.Traces = [] →
        (Seal tx).HasException = true)
    ∧ (statusIndicatesFailure tx.StatusCode = false →
        (∀ t : Trace, some t ∈ tx.Traces → t.ErrorCode = NoException) →
        (Seal tx).HasException = false) := by
  refine ⟨?_, ?_, ?_⟩
  · simp only [Seal, Bool.or_eq_true, List.any_eq_true, traceHasException_eq_true]
    constructor
    · rintro (hf | ⟨ot, hmem, t, rfl, hne⟩)
      · exact Or.inl hf
      · exact Or.inr ⟨t, hmem, hne⟩
    · rintro (hf | ⟨t, hmem, hne⟩)
      · exact Or.inl hf
      · exact Or.inr ⟨some t, hmem, t, rfl, hne⟩
  · intro hf _
    simp [Seal, hf]
  · intro hs hall
    simp only [Seal, hs, Bool.false_or]
    rw [List.any_eq_false]
    intro ot hmem
    cases ot with
    | none => simp [traceHasException]
    | some t => simp [traceHasException, hall t hmem]

/-- C6 witness: a record with failing external status and no traces has
`HasException = true` after sealing. -/
theorem Seal_hasException_iff_witness :
    (Seal { NewTxRecord with StatusCode := 0 }).HasException = true :=
  (Seal_hasException_iff { NewTxRecord with StatusCode := 0 }).2.1 (by decide) rfl

/-- C7: `NewTrace` appends exactly one fresh trace node at the end of the
sequence, leaves every previously appended node and every other record
field unchanged, and the returned node has an empty step sequence. -/
theorem NewTrace_appends_one (tx : ExceptionalTx) :
    (NewTrace tx).1.Traces.length = tx.Traces.length + 1
    ∧ (NewTrace tx).1.Traces.take tx.Traces.length = tx.Traces
    ∧ (NewTrace tx).1.Traces = tx.Traces ++ [some (NewTrace tx).2]
    ∧ (NewTrace tx).2.Steps = []
    ∧ (NewTrace tx).1.BlockNum = tx.BlockNum
    ∧ (NewTrace tx).1.TxIndex = tx.TxIndex
    ∧ (NewTrace tx).1.Nonce = tx.Nonce
    ∧ (NewTrace tx).1.TxHash = tx.TxHash
    ∧ (NewTrace tx).1.From = tx.From
    ∧ (NewTrace tx).1.To = tx.To
    ∧ (NewTrace tx).1.Value = tx.Value
    ∧ (NewTrace tx).1.Input = tx.Input
    ∧ (NewTrace tx).1.GasLimit = tx.GasLimit
    ∧ (NewTrace tx).1.GasPrice = tx.GasPrice
    ∧ (NewTrace tx).1.CreateAddress = tx.CreateAddress
    ∧ (NewTrace tx).1.StatusCode = tx.StatusCode
    ∧ (NewTrace tx).1.NumSteps = tx.NumSteps
    ∧ (NewTrace tx).1.HasException = tx.HasException := by
  refine ⟨by simp [NewTrace], ?_, rfl, rfl, rfl, rfl, rfl, rfl, rfl, rfl, rfl, rfl, rfl,
    rfl, rfl, rfl, rfl, rfl⟩
  simp [NewTrace, List.take_left]

/-- C8: `NewTxRecord` returns a record with an empty trace sequence, a
false exception flag, and zero-valued numeric root fields. -/
theorem NewTxRecord_zero_initialized :
    NewTxRecord.Traces = [] ∧ NewTxRecord.HasException = false
    ∧ NewTxRecord.BlockNum = 0 ∧ NewTxRecord.TxIndex = 0 ∧ NewTxRecord.Nonce = 0
    ∧ NewTxRecord.NumSteps = 0 ∧ NewTxRecord.StatusCode = 0 :=
  ⟨rfl, rfl, rfl, rfl, rfl, rfl, rfl⟩

/-- C10 counterexample: on a record holding a nil trace pointer the release
loop dereferences nil (`p.ReleaseInternal()` reads `t.Steps` through a nil
receiver) and panics instead of nilling the slots, so the claim does not
hold of every record — for instance any non-empty record already released
once. -/
theorem ReleaseInternal_nil_slot_panics :
    ExceptionalTx.ReleaseInternal { NewTxRecord with Traces := [none] } = none := rfl

/-- C10 (amended): on every record whose trace slots are all non-nil,
`ReleaseInternal` terminates, nils every trace slot while preserving the
slice length and every scalar field, and the per-trace
`Trace.ReleaseInternal` it first applies through each pointer nils every
step slot while preserving the step-slice length. -/
theorem ReleaseInternal_clears_slots (tx : ExceptionalTx)
    (h : ∀ ot ∈ tx.Traces, ot ≠ none) :
    ∃ tx', tx.ReleaseInternal = some tx'
      ∧ tx'.Traces.length = tx.Traces.length
      ∧ (∀ ot ∈ tx'.Traces, ot = none)
      ∧ tx'.BlockNum = tx.BlockNum
      ∧ tx'.TxIndex = tx.TxIndex
      ∧ tx'.Nonce = tx.Nonce
      ∧ tx'.TxHash = tx.TxHash
      ∧ tx'.From = tx.From
      ∧ tx'.To = tx.To
      ∧ tx'.Value = tx.Value
      ∧ tx'.Input = tx.Input
      ∧ tx'.GasLimit = tx.GasLimit
      ∧ tx'.GasPrice = tx.GasPrice
      ∧ tx'.CreateAddress = tx.CreateAddress
      ∧ tx'.StatusCode = tx.StatusCode
      ∧ tx'.NumSteps = tx.NumSteps
      ∧ tx'.HasException = tx.HasException
      ∧ (∀ t : Trace, (Trace.ReleaseInternal t).Steps.length = t.Steps.length
          ∧ ∀ os ∈ (Trace.ReleaseInternal t).Steps, os = none) := by
  refine ⟨{ tx with Traces := tx.Traces.map fun _ => none }, ?_, by simp, by simp,
    rfl, rfl, rfl, rfl, rfl, rfl, rfl, rfl, rfl, rfl, rfl, rfl, rfl, rfl, ?_⟩
  · simp [ExceptionalTx.ReleaseInternal, releaseTraceSlots_all_some tx.Traces h]
  · intro t
    exact ⟨by simp [Trace.ReleaseInternal], by simp [Trace.ReleaseInternal]⟩

/-- C10 witness: releasing a record with one non-nil trace succeeds. -/
theorem ReleaseInternal_clears_slots_witness :
    (ExceptionalTx.ReleaseInternal
      { NewTxRecord with Traces := [some newEmptyTrace] }).isSome = true := by
  obtain ⟨tx', heq, -⟩ :=
    ReleaseInternal_clears_slots { NewTxRecord with Traces := [some newEmptyTrace] }
      (by simp)
  rw [heq]
  rfl

end GethExperiment
